import Mathlib

/-!
Verification development for the mylocalrouter LLM gateway.

The definitions below are shallow embeddings of the Go source:
machine integers become `Nat`/`Int`, float scores become `ℚ` (all score
values produced by the embedded paths are exact small rationals),
fallible code returns `Except`/`Option`, and external HTTP effects are
passed in as explicit oracle arguments (call index ↦ response), so that
every function is a pure, executable Lean definition.
-/

namespace GoStrings

/-- Go strings.TrimSpace on a character list: drop whitespace from both
ends. -/
def trimChars (l : List Char) : List Char :=
  ((l.dropWhile Char.isWhitespace).reverse.dropWhile Char.isWhitespace).reverse

/-- Go strings.TrimSpace (ASCII-and-common-whitespace folding of the
Unicode definition, which coincides on the data these paths handle). -/
def trim (s : String) : String :=
  ⟨trimChars s.toList⟩

/-- Go strings.ToLower (ASCII case folding, which coincides with Go on
the role strings these paths compare). -/
def toLower (s : String) : String :=
  ⟨s.toList.map Char.toLower⟩

end GoStrings

namespace Models

/-- Message from internal/models: a chat message with a role and content. -/
structure Message where
  role : String
  content : String
deriving DecidableEq, Repr

/-- ChatCompletionRequest from internal/models: the client-facing request
(fields used by the routed paths; `maxTokens` is the Go `int`). -/
structure ChatCompletionRequest where
  model : String
  messages : List Message
  stream : Bool
  temperature : ℚ
  maxTokens : Int
deriving DecidableEq, Repr

end Models

namespace Providers

/-- resolveModel from openai.go / google.go / anthropic.go: the request
model if non-empty, else the runtime default, else the compile-time
default constant. -/
def resolveModel (reqModel runtimeDefault defaultModel : String) : String :=
  if reqModel ≠ "" then reqModel
  else if runtimeDefault ≠ "" then runtimeDefault
  else defaultModel

/-- Compile-time default model constant of the OpenAI-compatible provider. -/
def openaiDefaultModel : String := "gpt-5"

/-- Compile-time default model constant of the Google provider. -/
def googleDefaultModel : String := "gemini-3.0-flash-preview"

/-- Compile-time default model constant of the Anthropic provider. -/
def anthropicDefaultModel : String := "claude-3-5-haiku-20241022"

/-- Shared request/retry control flow of `ChatCompletion` and
`ChatCompletionStream` in openai.go, google.go and anthropic.go, which is
identical in all six functions up to the per-provider `DefaultModel`
constant. `respond i m` is the upstream outcome of the i-th HTTP request
issued with model `m`: `none` models a network error, `some s` an HTTP
status `s`. The result is the list of models attempted (one entry per
upstream request, in order) paired with `true` iff the call reached the
2xx success path (decoding of the 200 body is outside this model). -/
def chatCall (defaultModel : String) (fallbackOn404 : Bool)
    (respond : Nat → String → Option Nat) (attemptedModel : String) :
    List String × Bool :=
  match respond 0 attemptedModel with
  | none => ([attemptedModel], false)
  | some s1 =>
    if s1 = 404 ∧ attemptedModel ≠ defaultModel ∧ fallbackOn404 = true then
      match respond 1 defaultModel with
      | none => ([attemptedModel, defaultModel], false)
      | some s2 => ([attemptedModel, defaultModel], s2 = 200)
    else
      ([attemptedModel], s1 = 200)

end Providers

namespace Server

/-- One event observed by the `select` loop of handleStream in server.go:
the request context is done, a chunk is received from the stream channel,
or the channel is closed by the producer. -/
inductive StreamEvent (α : Type) where
  | ctxDone
  | recv (chunk : α)
  | closed
deriving DecidableEq, Repr

/-- The SSE frame handleStream writes for one chunk: the three
consecutive writes of the prefix, the JSON body and the blank line,
concatenated. `json` abstracts json.Marshal on stream chunks. -/
def frame (json : α → String) (c : α) : String :=
  "data: " ++ json c ++ "\n" ++ "\n"

/-- The terminating sentinel frame written by handleStream on channel
close. -/
def doneFrame : String :=
  "data: [DONE]" ++ "\n" ++ "\n"

/-- The forwarding loop of handleStream in server.go, as a function of
the sequence of events the `select` statement resolves: on context done
return with no further write, on channel close write the sentinel and
return, on a received chunk write its frame and continue. The result is
the ordered list of byte sequences written to the client. -/
def handleStreamWrites (json : α → String) : List (StreamEvent α) → List String
  | [] => []
  | .ctxDone :: _ => []
  | .closed :: _ => [doneFrame]
  | .recv c :: rest => frame json c :: handleStreamWrites json rest

end Server

namespace Anthropic

/-- One message of the Anthropic-native request body. -/
structure AnthropicMessage where
  role : String
  content : String
deriving DecidableEq, Repr

/-- anthropicRequest from anthropic.go (the fields mapRequest fills). -/
structure AnthropicRequest where
  model : String
  messages : List AnthropicMessage
  system : String
  maxTokens : Int
  stream : Bool
  temperature : ℚ
deriving DecidableEq, Repr

/-- Role coercion inside the message loop of mapRequest: lowercase, and
anything other than user/assistant becomes user. -/
def coerceRole (role : String) : String :=
  let r := GoStrings.toLower role
  if r ≠ "user" ∧ r ≠ "assistant" then "user" else r

/-- The message loop of mapRequest in anthropic.go: iterate the request
messages in order; a message whose lowercased role is "system" assigns
the running `system` value (overwriting any earlier one) and is skipped;
every other message is appended with its role coerced. -/
def mapRequestLoop (sys : String) (acc : List AnthropicMessage) :
    List Models.Message → String × List AnthropicMessage
  | [] => (sys, acc)
  | m :: rest =>
    if GoStrings.toLower m.role = "system" then
      mapRequestLoop m.content acc rest
    else
      mapRequestLoop sys (acc ++ [⟨coerceRole m.role, m.content⟩]) rest

/-- mapRequest from anthropic.go: build the Anthropic-native request,
injecting max_tokens 4096 when the request specified 0, and running the
system-hoisting message loop. -/
def mapRequest (req : Models.ChatCompletionRequest) : AnthropicRequest :=
  let p := mapRequestLoop "" [] req.messages
  { model := req.model
    stream := req.stream
    temperature := req.temperature
    maxTokens := if req.maxTokens = 0 then 4096 else req.maxTokens
    system := p.1
    messages := p.2 }

/-- Helper stating what content ends up in the hoisted `system` field:
the content of the last message whose lowercased role is "system", if
any. Used to phrase the amended form of the hoisting claim. -/
def lastSystemContent : List Models.Message → Option String
  | [] => none
  | m :: rest =>
    match lastSystemContent rest with
    | some s => some s
    | none => if GoStrings.toLower m.role = "system" then some m.content else none

end Anthropic

namespace Google

/-- Go strings.ReplaceAll with a non-empty pattern, on lists of
characters (Go operates on the byte sequence; characters stand for code
units here): scan left to right, replace each leftmost non-overlapping
occurrence of `k` by `r` and continue after it. For `k = []` this
definition is the identity; redactKey only calls it with a non-empty
key. -/
def replaceAll (k r : List Char) : List Char → List Char
  | [] => []
  | c :: s =>
    if k ≠ [] ∧ k <+: (c :: s) then
      r ++ replaceAll k r ((c :: s).drop k.length)
    else
      c :: replaceAll k r s
termination_by l => l.length
decreasing_by
  · rename_i h
    have hk : 0 < k.length := List.length_pos.mpr h.1
    simp only [List.length_drop, List.length_cons]
    omega
  · simp

/-- redactKey from google.go: replace every occurrence of the API key by
three asterisks; the empty key leaves the string unchanged. -/
def redactKey (apiKey s : List Char) : List Char :=
  if apiKey = [] then s else replaceAll apiKey ['*', '*', '*'] s

/-- The non-200 error string built by ChatCompletion in google.go
(`google api error <status>: <body>` passed through redactKey); the same
shape is used by chatCompletionOnce and both streaming variants, and the
network-error paths redact the raw error string, which is
`redactKey apiKey body` with `body` the error text. -/
def googleApiErrorMsg (apiKey : List Char) (status : Nat) (body : List Char) : List Char :=
  redactKey apiKey (("google api error " ++ toString status ++ ": ").toList ++ body)

end Google

namespace Evaluator

/-- EvaluationResult from pkg/evaluator: a dimension name and its score. -/
structure EvaluationResult where
  dimension : String
  score : ℚ
deriving DecidableEq, Repr

/-- The Go result map of EvaluateAll, modelled as a partial function
from dimension name to score. -/
abbrev ResultMap := String → Option ℚ

/-- Map insertion (Go `results[name] = score`). -/
def mapInsert (m : ResultMap) (k : String) (v : ℚ) : ResultMap :=
  fun n => if n = k then some v else m n

/-- The task loop of EvaluateAll in pkg/evaluator/engine.go, with each
evaluator task reduced to its settled outcome: `(name, some s)` for a
task whose Evaluate returned score `s`, `(name, none)` for a task that
returned an error (including a context-deadline error once the derived
deadline has passed). A failed task contributes nothing; a successful
one inserts its score under its name. Inserts are serialized by the
mutex; this definition performs them in program order. -/
def evaluateAllFrom (m : ResultMap) : List (String × Option ℚ) → ResultMap
  | [] => m
  | e :: rest =>
    evaluateAllFrom
      (match e.2 with
       | some s => mapInsert m e.1 s
       | none => m) rest

/-- EvaluateAll from pkg/evaluator/engine.go: run every task and collect
the successful scores into a fresh map. -/
def evaluateAll (evals : List (String × Option ℚ)) : ResultMap :=
  evaluateAllFrom (fun _ => none) evals

/-- Evaluate of BuiltinLengthEvaluator in builtin_length.go: error on an
empty message list, else score 1.0 iff the rune length of the trimmed
content of the last message reaches the threshold (Go `int`). -/
def builtinLengthEvaluate (name : String) (threshold : Int)
    (messages : List Models.Message) : Except String EvaluationResult :=
  match messages with
  | [] => .error "no messages provided"
  | m :: rest =>
    let lastMsg := (m :: rest).getLast (List.cons_ne_nil m rest)
    let trimmed := GoStrings.trim lastMsg.content
    let length : Int := trimmed.length
    let score : ℚ := if length ≥ threshold then 1 else 0
    .ok ⟨name, score⟩

/-- The history block rendered by the LLM evaluators: the messages with
indices in `[max 0 (n-1-historyRounds), n-1)` each printed as
`role: content` and a newline. -/
def historyString (historyRounds : Int) (msgs : List Models.Message) : String :=
  let n := msgs.length
  let start : Nat := ((n : Int) - 1 - historyRounds).toNat
  String.join ((msgs.dropLast.drop start).map (fun m => m.role ++ ": " ++ m.content ++ "\n"))

/-- Digit extraction at the end of Evaluate in llm_api.go: trim the
content, fail when empty, else take the first decimal digit character
anywhere in it as the score, failing when there is none. -/
def extractDigitScore (content : String) : Except String ℚ :=
  let c := GoStrings.trim content
  if c = "" then .error "empty content in response"
  else
    match c.toList.find? (fun ch => '0' ≤ ch && ch ≤ '9') with
    | some ch => .ok ((ch.toNat - '0'.toNat : ℕ) : ℚ)
    | none => .error "no numeric score found in content"

/-- Evaluate of LLMAPIEvaluator in llm_api.go: error on an empty message
list; otherwise render the prompt template on the history block and the
last message content (`render`, which may fail), dispatch the HTTP
request and parse the protocol-specific content field (`oracle`: prompt
↦ content or error, covering network, non-200 and decode failures), and
extract the first digit of the content as the score. -/
def llmApiEvaluate (name : String) (historyRounds : Int)
    (render : String → String → Except String String)
    (oracle : String → Except String String)
    (messages : List Models.Message) : Except String EvaluationResult :=
  match messages with
  | [] => .error "no messages provided"
  | m :: rest => do
    let currentMsg := (m :: rest).getLast (List.cons_ne_nil m rest)
    let prompt ← render (historyString historyRounds (m :: rest)) currentMsg.content
    let content ← oracle prompt
    let q ← extractDigitScore content
    .ok ⟨name, q⟩

/-- Go strconv.ParseFloat applied to a single leading character (the
`content[:1]` slice in evaluateOllama): it succeeds exactly on a decimal
digit, yielding its value. -/
def parseFloatFirstChar (c : Char) : Option ℚ :=
  if '0' ≤ c ∧ c ≤ '9' then some ((c.toNat - '0'.toNat : ℕ) : ℚ) else none

/-- The content-based fallback scoring at the end of evaluateOllama in
the LLM-Logprob evaluator: trim the content, fail when empty; parse the
first character as a float (succeeding on any decimal digit); on
failure, scan the whole content for the first character '0' or '1';
fail when neither step finds a digit. -/
def parseOllamaScore (content : String) : Except String ℚ :=
  let t := GoStrings.trim content
  match t.toList with
  | [] => .error "empty content in Ollama response"
  | c :: rest =>
    match parseFloatFirstChar c with
    | some q => .ok q
    | none =>
      match (c :: rest).find? (fun ch => ch == '0' || ch == '1') with
      | some ch => .ok ((ch.toNat - '0'.toNat : ℕ) : ℚ)
      | none => .error "no 0 or 1 found in Ollama content"

/-- evaluateOllama from the LLM-Logprob evaluator (src/unnamed/part_017)
after the HTTP dispatch: a non-200 status or an undecodable body is an
error, otherwise the message content is scored by the content-based
fallback. `body` is the decoded `.message.content`, `none` when
decoding failed. -/
def evaluateOllama (name : String) (status : Nat) (body : Option String) :
    Except String EvaluationResult :=
  if status ≠ 200 then .error "HTTP error"
  else
    match body with
    | none => .error "failed to decode Ollama response"
    | some content => (parseOllamaScore content).map (fun q => ⟨name, q⟩)

/-- Evaluate of LLMLogprobEvaluator (src/unnamed/part_017): error on an
empty message list; otherwise render the prompt; under the ollama
protocol call the Ollama endpoint (`ollamaOracle`: prompt ↦ status and
decoded content) and score by content fallback; under any other
protocol run the logprob-based OpenAI path, abstracted as
`openaiEval` (prompt ↦ softmax score or error), which no claim in this
development inspects. -/
def llmLogprobEvaluate (name : String) (historyRounds : Int) (protocol : String)
    (render : String → String → Except String String)
    (ollamaOracle : String → Nat × Option String)
    (openaiEval : String → Except String ℚ)
    (messages : List Models.Message) : Except String EvaluationResult :=
  match messages with
  | [] => .error "no messages provided"
  | m :: rest => do
    let currentMsg := (m :: rest).getLast (List.cons_ne_nil m rest)
    let prompt ← render (historyString historyRounds (m :: rest)) currentMsg.content
    if protocol = "ollama" then
      let r := ollamaOracle prompt
      evaluateOllama name r.1 r.2
    else
      (openaiEval prompt).map (fun q => ⟨name, q⟩)

end Evaluator

namespace Strategy

/-- The dynamically-typed result of running one compiled expr program:
it is either a boolean or some non-boolean value. -/
inductive ExprOut where
  | boolv (b : Bool)
  | nonBool
deriving DecidableEq, Repr

/-- CompiledRule from pkg/strategy (src/unnamed/part_013): the compiled
program, abstracted to its evaluation function on an intent vector
(`none` models an evaluation error, e.g. an operator on an undefined
vector key), and the rule's target provider. -/
structure CompiledRule (V : Type) where
  run : V → Option ExprOut
  target : String

/-- ExpressionResolver from pkg/strategy: the compiled rules in
configuration order (rules whose condition failed to compile were
dropped at construction) and the configured default provider. -/
structure ExpressionResolver (V : Type) where
  rules : List (CompiledRule V)
  defaultProvider : String

/-- The rule loop of Resolve: evaluate rules in order; a rule wins iff
its program ran without error and produced the boolean true; errors and
non-boolean results are skipped; when no rule wins, the default
provider is returned. -/
def resolveRules (dflt : String) (v : V) : List (CompiledRule V) → String
  | [] => dflt
  | r :: rest =>
    match r.run v with
    | some (.boolv true) => r.target
    | _ => resolveRules dflt v rest

/-- Resolve of ExpressionResolver (src/unnamed/part_013). -/
def resolve (e : ExpressionResolver V) (v : V) : String :=
  resolveRules e.defaultProvider v e.rules

/-- Whether a rule matches on vector `v` (its program yields the boolean
true). -/
def ruleMatches (v : V) (r : CompiledRule V) : Bool :=
  r.run v = some (.boolv true)

end Strategy

namespace Engine

/-- RemoteStrategy from internal/config/remote.go (the fields
SelectProvider reads). -/
structure RemoteStrategy where
  strategy : String
  localModel : String
  remoteProvider : String
  remoteModel : String
deriving DecidableEq, Repr

/-- The dynamically-typed result of the routing expression: the
`res.(string)` type assertion in SelectProvider only looks at whether
it is a string. -/
inductive ExprValue where
  | str (s : String)
  | nonString
deriving DecidableEq, Repr

/-- The inputs SelectProvider in internal/router/engine.go consults
besides the request and the remote strategy, with the external effects
abstracted: `pMap` is the registered provider map; `genEnabled` is the
conjunction `GlobalConfig.GenerativeRouting.Enabled` and a non-empty
evaluator list; `genResolved` is the resolver output ("" when the
resolver is nil or makes no decision); `exprConfigured` is whether a
routing expression string is configured; `exprCompiles` whether it
compiles; `exprRun` the value expr.Run produced (`none` on a run
error). -/
structure EngineInput (P : Type) where
  pMap : String → Option P
  genEnabled : Bool
  genResolved : String
  genFallbackProvider : String
  exprConfigured : Bool
  exprCompiles : Bool
  exprRun : Option ExprValue

/-- The `targetProvider` local of the generative tier: the resolver
decision or, when empty, the configured fallback provider. -/
def genTarget (inp : EngineInput P) : String :=
  if inp.genResolved ≠ "" then inp.genResolved else inp.genFallbackProvider

/-- The generative tier of SelectProvider: when enabled, take the
resolver decision or, when empty, the configured fallback provider;
when that name is non-empty and registered, route to it with the
request model unchanged; otherwise fall through (`none`). -/
def genTier (inp : EngineInput P) (reqModel : String) : Option (P × String) :=
  if inp.genEnabled = true then
    if genTarget inp ≠ "" then
      match inp.pMap (genTarget inp) with
      | some p => some (p, reqModel)
      | none => none
    else none
  else none

/-- The `targetModel` local of the expression tier: the strategy's
local model for "local_vllm" when non-empty, else the strategy's remote
model when non-empty, else the request model. -/
def exprTargetModel (providerName reqModel : String) (rc : RemoteStrategy) : String :=
  if providerName = "local_vllm" ∧ rc.localModel ≠ "" then rc.localModel
  else if rc.remoteModel ≠ "" then rc.remoteModel
  else reqModel

/-- The expression tier of SelectProvider: when an expression is
configured, compiles, runs without error and yields a string naming a
registered provider, route to it with the model `exprTargetModel`
picks; every failure falls through (`none`). -/
def exprTier (inp : EngineInput P) (reqModel : String) (rc : RemoteStrategy) :
    Option (P × String) :=
  if inp.exprConfigured = true ∧ inp.exprCompiles = true then
    match inp.exprRun with
    | some (.str providerName) =>
      match inp.pMap providerName with
      | some p => some (p, exprTargetModel providerName reqModel rc)
      | none => none
    | _ => none
  else none

/-- The missing-strategy fallback of SelectProvider: try "google", then
"local_vllm", else error. -/
def noStrategyFallback (inp : EngineInput P) (reqModel : String) :
    Option P × String × Option String :=
  match inp.pMap "google" with
  | some p => (some p, reqModel, none)
  | none =>
    match inp.pMap "local_vllm" with
    | some p => (some p, reqModel, none)
    | none => (none, "", some "no strategy and no sensible default providers found")

/-- The `targetProvider` local of the direct "remote" tier: the
strategy's remote provider, defaulting to "google" when empty. -/
def remoteTarget (rc : RemoteStrategy) : String :=
  if rc.remoteProvider = "" then "google" else rc.remoteProvider

/-- SelectProvider from internal/router/engine.go, returning the Go
triple `(Provider, targetModel, error)` with the provider and error as
options. Tiers in order: generative, missing strategy, expression,
direct. -/
def selectProvider (inp : EngineInput P) (req : Models.ChatCompletionRequest)
    (remoteCfg : Option RemoteStrategy) : Option P × String × Option String :=
  match genTier inp req.model with
  | some (p, m) => (some p, m, none)
  | none =>
    match remoteCfg with
    | none => noStrategyFallback inp req.model
    | some rc =>
      if rc.strategy = "" then noStrategyFallback inp req.model
      else
        match exprTier inp req.model rc with
        | some (p, m) => (some p, m, none)
        | none =>
          if rc.strategy = "remote" then
            match inp.pMap (remoteTarget rc) with
            | some p => (some p, rc.remoteModel, none)
            | none =>
              (none, "", some ("remote provider '" ++ remoteTarget rc ++ "' not configured"))
          else if rc.strategy = "local" then
            match inp.pMap "local_vllm" with
            | some p => (some p, rc.localModel, none)
            | none => (none, "", some "local provider 'local_vllm' not configured")
          else
            (none, "", some ("unknown strategy: " ++ rc.strategy))

end Engine

/-- C1: for every ChatCompletion / ChatCompletionStream call on any of
the three providers (the control flow `Providers.chatCall`, generic in
the provider's compile-time default model), if the upstream answers
404, the attempted model differs from the compile-time default and 404
fallback is enabled, the provider issues exactly one retry, with the
compile-time default model; in every other non-200 case of the first
request it errors after exactly one upstream request; and a non-200 on
the retry errors with no third request. -/
theorem chatCall_404_fallback (defaultModel : String) (fb : Bool)
    (respond : Nat → String → Option Nat) (m : String) :
    (respond 0 m = some 404 → m ≠ defaultModel → fb = true →
      (Providers.chatCall defaultModel fb respond m).1 = [m, defaultModel]) ∧
    (∀ s1, respond 0 m = some s1 → s1 ≠ 200 →
      ¬(s1 = 404 ∧ m ≠ defaultModel ∧ fb = true) →
      Providers.chatCall defaultModel fb respond m = ([m], false)) ∧
    (respond 0 m = some 404 → m ≠ defaultModel → fb = true →
      ∀ s2, respond 1 defaultModel = some s2 → s2 ≠ 200 →
      (Providers.chatCall defaultModel fb respond m).2 = false) := by
  refine ⟨?_, ?_, ?_⟩
  · intro h1 h2 h3
    subst h3
    cases hr : respond 1 defaultModel <;>
      simp [Providers.chatCall, h1, h2, hr]
  · intro s1 h1 h2 hn
    simp [Providers.chatCall, h1, hn, h2]
  · intro h1 h2 h3 s2 hr2 hs2
    subst h3
    simp [Providers.chatCall, h1, h2, hr2, hs2]

/-- C1 witness: with an upstream that 404s the first call and accepts
the second, a call attempting "bad-model" with fallback enabled against
the OpenAI default issues exactly the two requests of scenario S8 and
succeeds; a 404 with fallback disabled is fatal after one request; and
a retry that is itself refused fails. -/
theorem chatCall_404_fallback_witness :
    (Providers.chatCall Providers.openaiDefaultModel true
        (fun i _ => if i = 0 then some 404 else some 200) "bad-model").1
      = ["bad-model", Providers.openaiDefaultModel] ∧
    Providers.chatCall Providers.openaiDefaultModel false
        (fun _ _ => some 404) "bad-model" = (["bad-model"], false) ∧
    (Providers.chatCall Providers.openaiDefaultModel true
        (fun _ _ => some 404) "bad-model").2 = false := by
  refine ⟨?_, ?_, ?_⟩
  · exact (chatCall_404_fallback _ _ _ _).1 rfl (by decide) rfl
  · exact (chatCall_404_fallback _ _ _ _).2.1 404 rfl (by decide) (by decide)
  · exact (chatCall_404_fallback _ _ _ _).2.2 rfl (by decide) rfl 404 rfl (by decide)

/-- C2: after a successfully initiated stream, the handler writes one
`data: <json(chunk)>` frame per received chunk in channel order; when
the producer closes the channel the final write — and only then — is
the `data: [DONE]` sentinel, which is the last byte sequence written;
when the request context is cancelled first, the handler returns
without writing the sentinel. -/
theorem handleStream_writes {α : Type} (json : α → String) (chunks : List α)
    (rest : List (Server.StreamEvent α)) :
    Server.handleStreamWrites json (chunks.map .recv ++ .closed :: rest)
        = chunks.map (Server.frame json) ++ [Server.doneFrame] ∧
    (Server.handleStreamWrites json (chunks.map .recv ++ .closed :: rest)).getLast?
        = some Server.doneFrame ∧
    Server.handleStreamWrites json (chunks.map .recv ++ .ctxDone :: rest)
        = chunks.map (Server.frame json) := by
  have hclosed : Server.handleStreamWrites json (chunks.map .recv ++ .closed :: rest)
      = chunks.map (Server.frame json) ++ [Server.doneFrame] := by
    induction chunks with
    | nil => simp [Server.handleStreamWrites]
    | cons c cs ih => simpa [Server.handleStreamWrites] using ih
  refine ⟨hclosed, ?_, ?_⟩
  · rw [hclosed]
    exact List.getLast?_concat _
  · clear hclosed
    induction chunks with
    | nil => simp [Server.handleStreamWrites]
    | cons c cs ih => simpa [Server.handleStreamWrites] using ih

/-- A name that is not among the task names is untouched by the insert
loop of EvaluateAll. -/
theorem evaluateAllFrom_of_not_mem (evals : List (String × Option ℚ))
    (m : Evaluator.ResultMap) (name : String)
    (h : name ∉ evals.map Prod.fst) :
    Evaluator.evaluateAllFrom m evals name = m name := by
  induction evals generalizing m with
  | nil => rfl
  | cons e rest ih =>
    simp only [List.map_cons, List.mem_cons, not_or] at h
    cases hv : e.2 with
    | none =>
      simp only [Evaluator.evaluateAllFrom, hv]
      exact ih _ h.2
    | some s =>
      simp only [Evaluator.evaluateAllFrom, hv]
      rw [ih _ h.2, Evaluator.mapInsert, if_neg h.1]

/-- Under distinct task names, a successful task's score is what the
final map holds under its name. -/
theorem evaluateAllFrom_of_success (evals : List (String × Option ℚ))
    (m : Evaluator.ResultMap) (name : String) (s : ℚ)
    (hnd : (evals.map Prod.fst).Nodup) (hmem : (name, some s) ∈ evals) :
    Evaluator.evaluateAllFrom m evals name = some s := by
  induction evals generalizing m with
  | nil => cases hmem
  | cons e rest ih =>
    rw [List.map_cons, List.nodup_cons] at hnd
    rcases List.mem_cons.mp hmem with heq | htail
    · subst heq
      simp only [Evaluator.evaluateAllFrom]
      rw [evaluateAllFrom_of_not_mem _ _ _ hnd.1, Evaluator.mapInsert, if_pos rfl]
    · cases hv : e.2 with
      | none =>
        simp only [Evaluator.evaluateAllFrom, hv]
        exact ih _ hnd.2 htail
      | some v =>
        simp only [Evaluator.evaluateAllFrom, hv]
        exact ih _ hnd.2 htail

/-- Under distinct task names, a failed task's name is absent from the
final map whenever it is absent from the initial one. -/
theorem evaluateAllFrom_of_failure (evals : List (String × Option ℚ))
    (m : Evaluator.ResultMap) (name : String)
    (hnd : (evals.map Prod.fst).Nodup) (hmem : (name, (none : Option ℚ)) ∈ evals)
    (hm : m name = none) :
    Evaluator.evaluateAllFrom m evals name = none := by
  induction evals generalizing m with
  | nil => cases hmem
  | cons e rest ih =>
    rw [List.map_cons, List.nodup_cons] at hnd
    rcases List.mem_cons.mp hmem with heq | htail
    · subst heq
      simp only [Evaluator.evaluateAllFrom]
      rw [evaluateAllFrom_of_not_mem _ _ _ hnd.1]
      exact hm
    · have hne : name ≠ e.1 := by
        intro hcontra
        exact hnd.1 (hcontra ▸ List.mem_map_of_mem Prod.fst htail)
      cases hv : e.2 with
      | none =>
        simp only [Evaluator.evaluateAllFrom, hv]
        exact ih _ hnd.2 htail hm
      | some v =>
        simp only [Evaluator.evaluateAllFrom, hv]
        refine ih _ hnd.2 htail ?_
        rw [Evaluator.mapInsert, if_neg hne, hm]

/-- A score found in the final map was inserted by some successful
task (or was already in the initial map). -/
theorem evaluateAllFrom_exact (evals : List (String × Option ℚ))
    (m : Evaluator.ResultMap) (name : String) (s : ℚ)
    (h : Evaluator.evaluateAllFrom m evals name = some s) :
    (name, some s) ∈ evals ∨ m name = some s := by
  induction evals generalizing m with
  | nil => exact .inr h
  | cons e rest ih =>
    cases hv : e.2 with
    | none =>
      simp only [Evaluator.evaluateAllFrom, hv] at h
      rcases ih _ h with htail | hm
      · exact .inl (List.mem_cons_of_mem _ htail)
      · exact .inr hm
    | some v =>
      simp only [Evaluator.evaluateAllFrom, hv] at h
      rcases ih _ h with htail | hm
      · exact .inl (List.mem_cons_of_mem _ htail)
      · rw [Evaluator.mapInsert] at hm
        by_cases hne : name = e.1
        · rw [if_pos hne] at hm
          have hvs : v = s := Option.some.inj hm
          refine .inl ?_
          have he : (name, some s) = e := by
            rw [hne, ← hvs, ← hv]
          rw [he]
          exact List.mem_cons_self e rest
        · rw [if_neg hne] at hm
          exact .inr hm

/-- C4: for every call to EvaluateAll over tasks with distinct names,
failed (or deadline-exceeded, which surfaces as an error) tasks are
absent from the returned map — never present with a zero score — and
every successful task's name maps to exactly the score it returned;
conversely every entry of the map comes from a successful task. -/
theorem evaluateAll_partial_failure (evals : List (String × Option ℚ))
    (hnd : (evals.map Prod.fst).Nodup) :
    (∀ name, (name, (none : Option ℚ)) ∈ evals → Evaluator.evaluateAll evals name = none) ∧
    (∀ name s, (name, some s) ∈ evals → Evaluator.evaluateAll evals name = some s) ∧
    (∀ name s, Evaluator.evaluateAll evals name = some s → (name, some s) ∈ evals) := by
  refine ⟨?_, ?_, ?_⟩
  · intro name hmem
    exact evaluateAllFrom_of_failure evals _ name hnd hmem rfl
  · intro name s hmem
    exact evaluateAllFrom_of_success evals _ name s hnd hmem
  · intro name s h
    rcases evaluateAllFrom_exact evals _ name s h with hmem | hbad
    · exact hmem
    · cases hbad

/-- C4 witness: a pool with one failing task and one succeeding task
(the shape of TestEvaluateAll_FailingEvaluatorIsTolerated) leaves the
failed dimension absent and keeps the successful one intact. -/
theorem evaluateAll_partial_failure_witness :
    Evaluator.evaluateAll [("bad", none), ("good", some (7 / 10))] "bad" = none ∧
    Evaluator.evaluateAll [("bad", none), ("good", some (7 / 10))] "good" = some (7 / 10) := by
  constructor
  · exact (evaluateAll_partial_failure _ (by decide)).1 "bad" (by decide)
  · exact (evaluateAll_partial_failure _ (by decide)).2.1 "good" (7 / 10) (by simp)

/-- C7: Resolve evaluates the compiled rules in configuration order and
returns the target of the first rule whose program yields the boolean
true; a rule whose evaluation errors (e.g. on an undefined vector key)
or yields a non-boolean or false value is skipped without aborting; and
when no rule matches, the configured default provider is returned. -/
theorem resolve_first_match {V : Type} (e : Strategy.ExpressionResolver V) (v : V) :
    (Strategy.resolve e v =
      match e.rules.find? (Strategy.ruleMatches v) with
      | some r => r.target
      | none => e.defaultProvider) ∧
    (∀ (r : Strategy.CompiledRule V) (rules : List (Strategy.CompiledRule V)) (d : String),
      Strategy.ruleMatches v r = false →
      Strategy.resolveRules d v (r :: rules) = Strategy.resolveRules d v rules) ∧
    ((∀ r ∈ e.rules, Strategy.ruleMatches v r = false) →
      Strategy.resolve e v = e.defaultProvider) := by
  have hskip : ∀ (r : Strategy.CompiledRule V) (rules : List (Strategy.CompiledRule V))
      (d : String), Strategy.ruleMatches v r = false →
      Strategy.resolveRules d v (r :: rules) = Strategy.resolveRules d v rules := by
    intro r rules d hr
    simp only [Strategy.ruleMatches, decide_eq_false_iff_not] at hr
    simp only [Strategy.resolveRules]
  have hmain : ∀ (rules : List (Strategy.CompiledRule V)) (d : String),
      Strategy.resolveRules d v rules =
        match rules.find? (Strategy.ruleMatches v) with
        | some r => r.target
        | none => d := by
    intro rules d
    induction rules with
    | nil => rfl
    | cons r rest ih =>
      by_cases hr : Strategy.ruleMatches v r = true
      · rw [List.find?_cons_of_pos _ hr]
        simp only [Strategy.ruleMatches, decide_eq_true_eq] at hr
        simp only [Strategy.resolveRules, hr]
      · have hr' : Strategy.ruleMatches v r = false := by
          simpa using hr
        rw [List.find?_cons_of_neg _ (by simpa using hr), hskip r rest d hr', ih]
  refine ⟨hmain e.rules e.defaultProvider, hskip, ?_⟩
  intro hall
  rw [Strategy.resolve, hmain]
  rw [List.find?_eq_none.mpr (fun r hr => by simp [hall r hr])]

/-- C7 witness: a first rule that errors on an undefined key is
skipped; with no matching rule the default provider is returned; and a
matching second rule wins (the shape of scenarios S4/S5). -/
theorem resolve_first_match_witness :
    Strategy.resolveRules "default_p" 0
        [⟨fun _ => none, "a"⟩, ⟨fun _ => some (.boolv true), "local_vllm"⟩]
      = Strategy.resolveRules "default_p" 0 [⟨fun _ => some (.boolv true), "local_vllm"⟩] ∧
    Strategy.resolve (⟨[⟨fun _ => some (.boolv false), "a"⟩, ⟨fun _ => some .nonBool, "b"⟩],
        "default_p"⟩ : Strategy.ExpressionResolver Nat) 0 = "default_p" := by
  constructor
  · exact (resolve_first_match ⟨[], "default_p"⟩ 0).2.1
      ⟨fun _ => none, "a"⟩ [⟨fun _ => some (.boolv true), "local_vllm"⟩] "default_p" rfl
  · exact (resolve_first_match _ 0).2.2 (by
      intro r hr
      rcases List.mem_cons.mp hr with h | h
      · rw [h]; rfl
      · rcases List.mem_cons.mp h with h2 | h2
        · rw [h2]; rfl
        · cases h2)

/-- The message loop of mapRequest, characterized: the resulting system
value is the last system-role content (falling back to the running
value), and the resulting messages are the accumulator followed by the
non-system messages, roles coerced. -/
theorem mapRequestLoop_spec (msgs : List Models.Message) (sys : String)
    (acc : List Anthropic.AnthropicMessage) :
    Anthropic.mapRequestLoop sys acc msgs =
      ((Anthropic.lastSystemContent msgs).getD sys,
        acc ++ (msgs.filter (fun m => !(GoStrings.toLower m.role == "system"))).map
          (fun m => ⟨Anthropic.coerceRole m.role, m.content⟩)) := by
  induction msgs generalizing sys acc with
  | nil => simp [Anthropic.mapRequestLoop, Anthropic.lastSystemContent]
  | cons m rest ih =>
    by_cases h : GoStrings.toLower m.role = "system"
    · rw [Anthropic.mapRequestLoop, if_pos h, ih]
      cases hls : Anthropic.lastSystemContent rest <;>
        simp [Anthropic.lastSystemContent, List.filter_cons, h, hls]
    · rw [Anthropic.mapRequestLoop, if_neg h, ih]
      cases hls : Anthropic.lastSystemContent rest <;>
        simp [Anthropic.lastSystemContent, List.filter_cons, h, hls]

/-- C5 counterexample: on a request holding two system messages, the
code hoists the content of the LAST one ("second"), not the first, and
removes BOTH from the translated messages instead of translating the
later one in place — so the claim's "first system message is hoisted"
and "later system-role messages are translated in place" both fail. -/
theorem mapRequest_two_system_messages :
    (Anthropic.mapRequest ⟨"m", [⟨"system", "first"⟩, ⟨"user", "hi"⟩, ⟨"system", "second"⟩],
        false, 0, 0⟩).system = "second" ∧
    (Anthropic.mapRequest ⟨"m", [⟨"system", "first"⟩, ⟨"user", "hi"⟩, ⟨"system", "second"⟩],
        false, 0, 0⟩).messages = [⟨"user", "hi"⟩] ∧
    ¬((Anthropic.mapRequest ⟨"m", [⟨"system", "first"⟩, ⟨"user", "hi"⟩, ⟨"system", "second"⟩],
        false, 0, 0⟩).system = "first") := by
  refine ⟨by decide, by decide, by decide⟩

/-- C5 amended: when a chat request is translated to the Anthropic
Messages API, EVERY message whose role is case-insensitively "system"
is removed from the translated messages and its content assigned to the
top-level system field, so the LAST such message's content wins (empty
when there is none); all other messages are translated in place with
roles outside user/assistant coerced to user; and max_tokens 4096 is
injected exactly when the request specified 0. -/
theorem mapRequest_system_hoisting (req : Models.ChatCompletionRequest) :
    (Anthropic.mapRequest req).system
        = (Anthropic.lastSystemContent req.messages).getD "" ∧
    (Anthropic.mapRequest req).messages
        = (req.messages.filter (fun m => !(GoStrings.toLower m.role == "system"))).map
            (fun m => ⟨Anthropic.coerceRole m.role, m.content⟩) ∧
    (Anthropic.mapRequest req).maxTokens
        = (if req.maxTokens = 0 then 4096 else req.maxTokens) := by
  refine ⟨?_, ?_, rfl⟩
  · show (Anthropic.mapRequestLoop "" [] req.messages).1 = _
    rw [mapRequestLoop_spec]
  · show (Anthropic.mapRequestLoop "" [] req.messages).2 = _
    rw [mapRequestLoop_spec]
    simp

/-- Unfolding lemma for `replaceAll` at a match position. -/
theorem replaceAll_cons_of_pos (k r : List Char) (c : Char) (s : List Char)
    (h : k ≠ [] ∧ k <+: (c :: s)) :
    Google.replaceAll k r (c :: s)
      = r ++ Google.replaceAll k r ((c :: s).drop k.length) := by
  rw [Google.replaceAll, if_pos h]

/-- Unfolding lemma for `replaceAll` at a non-match position. -/
theorem replaceAll_cons_of_neg (k r : List Char) (c : Char) (s : List Char)
    (h : ¬(k ≠ [] ∧ k <+: (c :: s))) :
    Google.replaceAll k r (c :: s) = c :: Google.replaceAll k r s := by
  rw [Google.replaceAll, if_neg h]

/-- A list without asterisks is never a prefix of an asterisk-headed
list. -/
theorem not_prefix_of_star (k : List Char) (hk : k ≠ []) (hstar : '*' ∉ k)
    (l : List Char) : ¬ k <+: '*' :: l := by
  cases k with
  | nil => exact absurd rfl hk
  | cons kh kt =>
    rw [List.cons_prefix_cons]
    rintro ⟨h1, -⟩
    exact hstar (h1 ▸ List.mem_cons_self kh kt)

/-- An asterisk-free prefix of the redaction output is a prefix of the
input: the replacement only ever inserts asterisk blocks. -/
theorem replaceAll_prefix_no_star_aux (k : List Char) :
    ∀ n s u, s.length ≤ n → u <+: Google.replaceAll k ['*', '*', '*'] s →
      '*' ∉ u → u <+: s := by
  intro n
  induction n with
  | zero =>
    intro s u hlen hpre hu
    have hs : s = [] := List.length_eq_zero.mp (Nat.le_zero.mp hlen)
    subst hs
    rw [Google.replaceAll] at hpre
    rw [List.prefix_nil] at hpre
    subst hpre
    exact List.nil_prefix
  | succ n ih =>
    intro s u hlen hpre hu
    cases s with
    | nil =>
      rw [Google.replaceAll] at hpre
      rw [List.prefix_nil] at hpre
      subst hpre
      exact List.nil_prefix
    | cons c s' =>
      by_cases hcond : k ≠ [] ∧ k <+: (c :: s')
      · rw [replaceAll_cons_of_pos k _ c s' hcond] at hpre
        cases u with
        | nil => exact List.nil_prefix
        | cons uh ut =>
          simp only [List.cons_append, List.nil_append] at hpre
          rw [List.cons_prefix_cons] at hpre
          exact absurd (hpre.1 ▸ List.mem_cons_self uh ut) hu
      · rw [replaceAll_cons_of_neg k _ c s' hcond] at hpre
        cases u with
        | nil => exact List.nil_prefix
        | cons uh ut =>
          rw [List.cons_prefix_cons] at hpre
          obtain ⟨huh, hut⟩ := hpre
          have hut' : ut <+: s' := by
            refine ih s' ut ?_ hut (fun hc => hu (List.mem_cons_of_mem _ hc))
            simpa using hlen
          rw [List.cons_prefix_cons]
          exact ⟨huh, hut'⟩

/-- The key never survives redaction: an asterisk-free non-empty
pattern never occurs in `replaceAll` output that replaced it with
asterisks. -/
theorem replaceAll_no_occurrence_aux (k : List Char) (hk : k ≠ []) (hstar : '*' ∉ k) :
    ∀ n s, s.length ≤ n → ¬ k <:+: Google.replaceAll k ['*', '*', '*'] s := by
  intro n
  induction n with
  | zero =>
    intro s hlen hinf
    have hs : s = [] := List.length_eq_zero.mp (Nat.le_zero.mp hlen)
    subst hs
    rw [Google.replaceAll] at hinf
    exact hk (List.eq_nil_of_infix_nil hinf)
  | succ n ih =>
    intro s hlen hinf
    cases s with
    | nil =>
      rw [Google.replaceAll] at hinf
      exact hk (List.eq_nil_of_infix_nil hinf)
    | cons c s' =>
      by_cases hcond : k ≠ [] ∧ k <+: (c :: s')
      · rw [replaceAll_cons_of_pos k _ c s' hcond] at hinf
        have hklen : 0 < k.length := List.length_pos.mpr hk
        have h1 : k <:+: Google.replaceAll k ['*', '*', '*'] ((c :: s').drop k.length) := by
          rcases List.infix_cons_iff.mp hinf with hp | hinf1
          · exact absurd hp (not_prefix_of_star k hk hstar _)
          rcases List.infix_cons_iff.mp hinf1 with hp | hinf2
          · exact absurd hp (not_prefix_of_star k hk hstar _)
          rcases List.infix_cons_iff.mp hinf2 with hp | hinf3
          · exact absurd hp (not_prefix_of_star k hk hstar _)
          exact hinf3
        refine ih _ ?_ h1
        simp only [List.length_cons] at hlen
        simp only [List.length_drop, List.length_cons]
        omega
      · rw [replaceAll_cons_of_neg k _ c s' hcond] at hinf
        rcases List.infix_cons_iff.mp hinf with hp | hinf1
        · cases k with
          | nil => exact hk rfl
          | cons kh kt =>
            rw [List.cons_prefix_cons] at hp
            obtain ⟨hkh, hkt⟩ := hp
            have hkt' : kt <+: s' :=
              replaceAll_prefix_no_star_aux (kh :: kt)
                s'.length s' kt le_rfl hkt
                (fun hc => hstar (List.mem_cons_of_mem _ hc))
            exact hcond ⟨hk, by rw [List.cons_prefix_cons]; exact ⟨hkh, hkt'⟩⟩
        · refine ih s' ?_ hinf1
          simpa using hlen

/-- C8 counterexample: a provider whose API key is the single character
'*' (a legal non-empty key) has its key still present in the redacted
output — `redactKey` maps "*" to "***", which contains the key — so
the claim's universal "the output contains no occurrence of the API
key" fails as stated. -/
theorem redactKey_star_key_survives :
    Google.redactKey ['*'] ['*'] = ['*', '*', '*'] ∧
    ['*'] <:+: Google.redactKey ['*'] ['*'] := by
  constructor
  · simp +decide [Google.redactKey, Google.replaceAll]
  · rw [(by simp +decide [Google.redactKey, Google.replaceAll] :
      Google.redactKey ['*'] ['*'] = ['*', '*', '*'])]
    decide

/-- C8 amended: for the Google provider with a non-empty API key that
does not itself contain the replacement character '*', redaction is
complete — the key occurs neither in any redacted string nor in the
error strings ChatCompletion builds from the upstream status and body
(all of which pass through redactKey). -/
theorem redactKey_no_key_occurrence (apiKey : List Char)
    (hk : apiKey ≠ []) (hstar : '*' ∉ apiKey) :
    (∀ s, ¬ apiKey <:+: Google.redactKey apiKey s) ∧
    (∀ status body, ¬ apiKey <:+: Google.googleApiErrorMsg apiKey status body) := by
  have hmain : ∀ s, ¬ apiKey <:+: Google.redactKey apiKey s := by
    intro s
    rw [Google.redactKey, if_neg hk]
    exact replaceAll_no_occurrence_aux apiKey hk hstar s.length s le_rfl
  exact ⟨hmain, fun status body => hmain _⟩

/-- C8 witness: a concrete asterisk-free key is absent from a redacted
string that contained it, and from a formatted upstream error string. -/
theorem redactKey_no_key_occurrence_witness :
    ¬ ['k', 'e', 'y'] <:+: Google.redactKey ['k', 'e', 'y']
        ['u', 'r', 'l', '?', 'k', 'e', 'y', '=', 'x'] ∧
    ¬ ['k', 'e', 'y'] <:+: Google.googleApiErrorMsg ['k', 'e', 'y'] 500
        ['b', 'a', 'd', ' ', 'k', 'e', 'y'] := by
  constructor
  · exact (redactKey_no_key_occurrence ['k', 'e', 'y'] (by decide) (by decide)).1 _
  · exact (redactKey_no_key_occurrence ['k', 'e', 'y'] (by decide) (by decide)).2 500 _

/-- A provider produced by the generative tier comes from the
registered provider map, with the request model unchanged. -/
theorem genTier_some {P : Type} (inp : Engine.EngineInput P) (rm : String)
    (x : P × String) (h : Engine.genTier inp rm = some x) :
    (∃ name, inp.pMap name = some x.1) ∧ x.2 = rm := by
  by_cases hg : inp.genEnabled = true
  · rw [Engine.genTier, if_pos hg] at h
    by_cases ht : Engine.genTarget inp ≠ ""
    · rw [if_pos ht] at h
      cases hp : inp.pMap (Engine.genTarget inp) with
      | some p =>
        simp only [hp] at h
        cases h
        exact ⟨⟨_, hp⟩, rfl⟩
      | none => simp only [hp] at h; cases h
    · rw [if_neg ht] at h; cases h
  · rw [Engine.genTier, if_neg hg] at h; cases h

/-- A provider produced by the expression tier comes from the
registered provider map. -/
theorem exprTier_some {P : Type} (inp : Engine.EngineInput P) (rm : String)
    (rc : Engine.RemoteStrategy) (x : P × String)
    (h : Engine.exprTier inp rm rc = some x) :
    ∃ name, inp.pMap name = some x.1 := by
  by_cases hc : inp.exprConfigured = true ∧ inp.exprCompiles = true
  · rw [Engine.exprTier, if_pos hc] at h
    cases hr : inp.exprRun with
    | none => simp only [hr] at h; cases h
    | some v =>
      cases v with
      | nonString => simp only [hr] at h; cases h
      | str providerName =>
        simp only [hr] at h
        cases hp : inp.pMap providerName with
        | some p =>
          simp only [hp] at h
          cases h
          exact ⟨_, hp⟩
        | none => simp only [hp] at h; cases h
  · rw [Engine.exprTier, if_neg hc] at h; cases h

/-- The missing-strategy fallback either returns a registered provider
with the request model and no error, or an error with no provider. -/
theorem noStrategyFallback_spec {P : Type} (inp : Engine.EngineInput P) (rm : String) :
    (∃ p name, inp.pMap name = some p ∧
      Engine.noStrategyFallback inp rm = (some p, rm, none)) ∨
    (∃ e, Engine.noStrategyFallback inp rm = (none, "", some e)) := by
  unfold Engine.noStrategyFallback
  cases hg : inp.pMap "google" with
  | some p => exact .inl ⟨p, "google", hg, rfl⟩
  | none =>
    cases hl : inp.pMap "local_vllm" with
    | some p => exact .inl ⟨p, "local_vllm", hl, rfl⟩
    | none => exact .inr ⟨_, rfl⟩

/-- C9: for every request and every strategy value (including a nil
strategy), SelectProvider returns either a provider that is a value of
the registered provider map together with no error, or no provider
together with an error — never a nil provider with a nil error, so the
gateway's unconditional use of the returned provider is safe. -/
theorem selectProvider_total {P : Type} (inp : Engine.EngineInput P)
    (req : Models.ChatCompletionRequest) (remoteCfg : Option Engine.RemoteStrategy) :
    (∃ p name m, inp.pMap name = some p ∧
      Engine.selectProvider inp req remoteCfg = (some p, m, none)) ∨
    (∃ e, Engine.selectProvider inp req remoteCfg = (none, "", some e)) := by
  cases hg : Engine.genTier inp req.model with
  | some x =>
    obtain ⟨p, m⟩ := x
    obtain ⟨⟨name, hn⟩, -⟩ := genTier_some inp req.model (p, m) hg
    refine .inl ⟨p, name, m, hn, ?_⟩
    simp only [Engine.selectProvider, hg]
  | none =>
    cases remoteCfg with
    | none =>
      rcases noStrategyFallback_spec inp req.model with ⟨p, name, hn, hres⟩ | ⟨e, hres⟩
      · refine .inl ⟨p, name, req.model, hn, ?_⟩
        simp only [Engine.selectProvider, hg]
        exact hres
      · refine .inr ⟨e, ?_⟩
        simp only [Engine.selectProvider, hg]
        exact hres
    | some rc =>
      by_cases hs : rc.strategy = ""
      · rcases noStrategyFallback_spec inp req.model with ⟨p, name, hn, hres⟩ | ⟨e, hres⟩
        · refine .inl ⟨p, name, req.model, hn, ?_⟩
          simp only [Engine.selectProvider, hg, if_pos hs]
          exact hres
        · refine .inr ⟨e, ?_⟩
          simp only [Engine.selectProvider, hg, if_pos hs]
          exact hres
      · cases he : Engine.exprTier inp req.model rc with
        | some x =>
          obtain ⟨p, m⟩ := x
          obtain ⟨name, hn⟩ := exprTier_some inp req.model rc (p, m) he
          refine .inl ⟨p, name, m, hn, ?_⟩
          simp only [Engine.selectProvider, hg, if_neg hs, he]
        | none =>
          by_cases hr : rc.strategy = "remote"
          · cases hp : inp.pMap (Engine.remoteTarget rc) with
            | some p =>
              refine .inl ⟨p, Engine.remoteTarget rc, rc.remoteModel, hp, ?_⟩
              simp only [Engine.selectProvider, hg, if_neg hs, he, if_pos hr, hp]
            | none =>
              refine .inr ⟨"remote provider '" ++ Engine.remoteTarget rc ++ "' not configured", ?_⟩
              simp only [Engine.selectProvider, hg, if_neg hs, he, if_pos hr, hp]
          · by_cases hl : rc.strategy = "local"
            · cases hp : inp.pMap "local_vllm" with
              | some p =>
                refine .inl ⟨p, "local_vllm", rc.localModel, hp, ?_⟩
                simp only [Engine.selectProvider, hg, if_neg hs, he, if_neg hr, if_pos hl, hp]
              | none =>
                refine .inr ⟨"local provider 'local_vllm' not configured", ?_⟩
                simp only [Engine.selectProvider, hg, if_neg hs, he, if_neg hr, if_pos hl, hp]
            · refine .inr ⟨"unknown strategy: " ++ rc.strategy, ?_⟩
              simp only [Engine.selectProvider, hg, if_neg hs, he, if_neg hr, if_neg hl]

/-- C3: in the direct tier (no generative decision and no expression
match), strategy "remote" routes to the provider registered under
remote_provider — "google" when that is empty — with target model
remote_model; strategy "local" routes to "local_vllm" with target model
local_model; an unregistered chosen provider, or any other non-empty
strategy string, is an error. -/
theorem selectProvider_direct_tier {P : Type} (inp : Engine.EngineInput P)
    (req : Models.ChatCompletionRequest) (rc : Engine.RemoteStrategy)
    (hgen : Engine.genTier inp req.model = none)
    (hexpr : Engine.exprTier inp req.model rc = none) :
    (rc.strategy = "remote" →
      (∀ p, inp.pMap (Engine.remoteTarget rc) = some p →
        Engine.selectProvider inp req (some rc) = (some p, rc.remoteModel, none)) ∧
      (inp.pMap (Engine.remoteTarget rc) = none →
        ∃ e, Engine.selectProvider inp req (some rc) = (none, "", some e))) ∧
    (rc.strategy = "local" →
      (∀ p, inp.pMap "local_vllm" = some p →
        Engine.selectProvider inp req (some rc) = (some p, rc.localModel, none)) ∧
      (inp.pMap "local_vllm" = none →
        ∃ e, Engine.selectProvider inp req (some rc) = (none, "", some e))) ∧
    (rc.strategy ≠ "" → rc.strategy ≠ "remote" → rc.strategy ≠ "local" →
      ∃ e, Engine.selectProvider inp req (some rc) = (none, "", some e)) := by
  refine ⟨?_, ?_, ?_⟩
  · intro hr
    have hs : ¬(rc.strategy = "") := by rw [hr]; decide
    constructor
    · intro p hp
      simp only [Engine.selectProvider, hgen, hexpr, if_neg hs, if_pos hr, hp]
    · intro hp
      refine ⟨"remote provider '" ++ Engine.remoteTarget rc ++ "' not configured", ?_⟩
      simp only [Engine.selectProvider, hgen, hexpr, if_neg hs, if_pos hr, hp]
  · intro hl
    have hs : ¬(rc.strategy = "") := by rw [hl]; decide
    have hr : ¬(rc.strategy = "remote") := by rw [hl]; decide
    constructor
    · intro p hp
      simp only [Engine.selectProvider, hgen, hexpr, if_neg hs, if_neg hr, if_pos hl, hp]
    · intro hp
      refine ⟨"local provider 'local_vllm' not configured", ?_⟩
      simp only [Engine.selectProvider, hgen, hexpr, if_neg hs, if_neg hr, if_pos hl, hp]
  · intro hs hr hl
    refine ⟨"unknown strategy: " ++ rc.strategy, ?_⟩
    simp only [Engine.selectProvider, hgen, hexpr, if_neg hs, if_neg hr, if_neg hl]

/-- C3 witness: with generative routing disabled and no expression
configured, a "remote" strategy naming openai with model gpt-4 routes
there (scenario S2); a "local" strategy with an unregistered local
provider errors; and the strategy string "weird" errors. -/
theorem selectProvider_direct_tier_witness :
    Engine.selectProvider
        (⟨fun n => if n = "openai" then some 1 else none, false, "", "", false, false, none⟩ :
          Engine.EngineInput Nat)
        ⟨"", [], false, 0, 0⟩ (some ⟨"remote", "", "openai", "gpt-4"⟩)
      = (some 1, "gpt-4", none) ∧
    (∃ e, Engine.selectProvider
        (⟨fun n => if n = "openai" then some 1 else none, false, "", "", false, false, none⟩ :
          Engine.EngineInput Nat)
        ⟨"", [], false, 0, 0⟩ (some ⟨"local", "llama-3", "", ""⟩)
      = (none, "", some e)) ∧
    (∃ e, Engine.selectProvider
        (⟨fun n => if n = "openai" then some 1 else none, false, "", "", false, false, none⟩ :
          Engine.EngineInput Nat)
        ⟨"", [], false, 0, 0⟩ (some ⟨"weird", "", "", ""⟩)
      = (none, "", some e)) := by
  refine ⟨?_, ?_, ?_⟩
  · exact (selectProvider_direct_tier
      (⟨fun n => if n = "openai" then some 1 else none, false, "", "", false, false, none⟩ :
        Engine.EngineInput Nat)
      ⟨"", [], false, 0, 0⟩ ⟨"remote", "", "openai", "gpt-4"⟩ rfl rfl).1 rfl |>.1 1 rfl
  · exact (selectProvider_direct_tier
      (⟨fun n => if n = "openai" then some 1 else none, false, "", "", false, false, none⟩ :
        Engine.EngineInput Nat)
      ⟨"", [], false, 0, 0⟩ ⟨"local", "llama-3", "", ""⟩ rfl rfl).2.1 rfl |>.2 rfl
  · exact (selectProvider_direct_tier
      (⟨fun n => if n = "openai" then some 1 else none, false, "", "", false, false, none⟩ :
        Engine.EngineInput Nat)
      ⟨"", [], false, 0, 0⟩ ⟨"weird", "", "", ""⟩ rfl rfl).2.2 (by decide) (by decide) (by decide)

/-- C6: the LLM-Logprob evaluator under the ollama protocol falls back
to content parsing, and on content "7" (trimmed, first character a
digit) the code returns score 7.0 — outside the {0.0, 1.0} range the
claim states, contradicting the fallback's own comment and error
message, which admit only '0' or '1'. -/
theorem evaluateOllama_digit_seven :
    Evaluator.evaluateOllama "dim" 200 (some "7") = .ok ⟨"dim", 7⟩ ∧
    (7 : ℚ) ≠ 0 ∧ (7 : ℚ) ≠ 1 :=
  ⟨rfl, by decide, by decide⟩

/-- C10: every evaluator variant — BuiltinLength, LLM-API and
LLM-Logprob — returns the "no messages provided" error (and in
particular a value, not a panic: the definitions are total) when
Evaluate is called with an empty message list, for every configuration
and upstream behaviour. -/
theorem evaluate_empty_messages (name : String) (threshold : Int)
    (historyRounds : Int) (protocol : String)
    (render : String → String → Except String String)
    (oracle : String → Except String String)
    (ollamaOracle : String → Nat × Option String)
    (openaiEval : String → Except String ℚ) :
    Evaluator.builtinLengthEvaluate name threshold [] = .error "no messages provided" ∧
    Evaluator.llmApiEvaluate name historyRounds render oracle [] = .error "no messages provided" ∧
    Evaluator.llmLogprobEvaluate name historyRounds protocol render ollamaOracle openaiEval []
      = .error "no messages provided" :=
  ⟨rfl, rfl, rfl⟩
